import Mathlib

/-!
Verification of the chat-channel core (`src/objects/channel.py`) of the
repository `jamuwu/gulag`.

The `Channel` class is embedded shallowly: its fields become a Lean
structure, and each method becomes a Lean function.  Side effects are made
explicit:

* enqueueing a packet to a player becomes an entry in a returned delivery
  list (`Player × Packet`);
* the call `glob.channels.remove(self)` inside `Channel.remove` becomes a
  `DirEvent.removeChannel` entry in a returned event list;
* the `ValueError` that Python's `list.remove` raises when the element is
  absent becomes the `Except.error PyError.valueError` outcome.
-/

deriving instance DecidableEq for Except

/-- External `Player` object, referenced by the channel.  The channel code
only uses the player's `id` (for the `immune` filter) and `name` (for the
message packet), so those are the fields we keep. -/
structure Player where
  id : Nat
  name : String
deriving DecidableEq, Repr

/-- The payload built by `packets.sendMessage(client, msg, target, client_id)`.
The channel treats it as an opaque blob; we keep the four arguments. -/
structure Packet where
  client : String
  msg : String
  target : String
  client_id : Nat
deriving DecidableEq, Repr

/-- `packets.sendMessage` as called from `channel.py`. -/
def sendMessage (client : String) (msg : String) (target : String)
    (client_id : Nat) : Packet :=
  ⟨client, msg, target, client_id⟩

/-- A request made to the global channel directory (`glob.channels`).
`Channel.remove` issues `removeChannel` when the instance-deletion branch
fires; the channel passes itself, which we record by its true name. -/
inductive DirEvent where
  | removeChannel (channelName : String)
deriving DecidableEq, Repr

/-- A Python exception surfaced by the embedded code.  `list.remove` raises
`ValueError` when its argument is not in the list. -/
inductive PyError where
  | valueError
deriving DecidableEq, Repr

/-- The `Channel` class.  `read`/`write` are `Privileges` values (a bitmask
in the source, embedded as `Nat`); `instance` is a Python keyword-free
field name there but a keyword in Lean, hence `instance_`. -/
structure Channel where
  _name : String
  topic : String
  players : List Player
  read : Nat
  write : Nat
  auto_join : Bool
  instance_ : Bool
deriving DecidableEq, Repr

/-- `Channel.__init__`: every channel starts with an empty player list. -/
def Channel.init (name topic : String) (read write : Nat)
    (auto_join : Bool) (inst : Bool) : Channel :=
  { _name := name, topic := topic, players := [],
    read := read, write := write,
    auto_join := auto_join, instance_ := inst }

/-- Python's `str.startswith`: the prefix's characters head the string's. -/
def pyStartswith (s pre : String) : Bool :=
  pre.data.isPrefixOf s.data

/-- The `name` property: `#spec_*` displays as `#spectator`, `#multi_*` as
`#multiplayer`, anything else as the true name. -/
def Channel.name (c : Channel) : String :=
  if pyStartswith c._name "#spec_" then "#spectator"
  else if pyStartswith c._name "#multi_" then "#multiplayer"
  else c._name

/-- The `basic_info` property: `(self.name, self.topic, len(self.players))`. -/
def Channel.basic_info (c : Channel) : String × String × Nat :=
  (c.name, c.topic, c.players.length)

/-- `Channel.__contains__`: `p in self.players`. -/
def Channel.contains (c : Channel) (p : Player) : Bool :=
  c.players.contains p

/-- Python's `list.remove`: delete the first occurrence of `p`, or signal
`ValueError` (here: `none`) when `p` is absent. -/
def listRemove (l : List Player) (p : Player) : Option (List Player) :=
  match l with
  | [] => none
  | x :: xs =>
      if x = p then some xs
      else (listRemove xs p).map (fun ys => x :: ys)

/-- `Channel.append`: `self.players.append(p)` — unconditionally push `p`
onto the end of the player list. -/
def Channel.append (c : Channel) (p : Player) : Channel :=
  { c with players := c.players ++ [p] }

/-- `Channel.remove`: when the channel is an instance and exactly one
player is listed, ask the directory to drop the channel (the player list is
not touched); otherwise `self.players.remove(p)`, which raises `ValueError`
if `p` is not listed. -/
def Channel.remove (c : Channel) (p : Player) :
    Except PyError (Channel × List DirEvent) :=
  if c.players.length == 1 && c.instance_ then
    Except.ok (c, [DirEvent.removeChannel c._name])
  else
    match listRemove c.players p with
    | some l => Except.ok ({ c with players := l }, [])
    | none => Except.error PyError.valueError

/-- `Channel.enqueue`: deliver `data` to every listed player whose id is
not in `immune`, in list order.  The deliveries are returned as an ordered
list of (recipient, payload) pairs. -/
def Channel.enqueue (c : Channel) (data : Packet) (immune : List Nat) :
    List (Player × Packet) :=
  (c.players.filter (fun p => !(immune.contains p.id))).map (fun p => (p, data))

/-- `Channel.send`: enqueue the encoded message to all players, immunising
the sender's id unless `to_self` is set. -/
def Channel.send (c : Channel) (client : Player) (msg : String)
    (to_self : Bool) : List (Player × Packet) :=
  c.enqueue (sendMessage client.name msg c.name client.id)
    (if to_self then [] else [client.id])

/-- `Channel.send_selective`: enqueue the encoded message to each player in
`targets`, in order, with no membership check. -/
def Channel.send_selective (c : Channel) (client : Player) (msg : String)
    (targets : List Player) : List (Player × Packet) :=
  targets.map (fun p => (p, sendMessage client.name msg c.name client.id))

/-- One call in a join/leave history. -/
inductive Op where
  | join (p : Player)
  | leave (p : Player)
deriving DecidableEq, Repr

/-- Replay a history of `append`/`remove` calls against a channel,
propagating any raised `ValueError`.  Directory events are irrelevant for
membership counting and are dropped. -/
def replay (c : Channel) : List Op → Except PyError Channel
  | [] => Except.ok c
  | Op.join p :: rest => replay (c.append p) rest
  | Op.leave p :: rest =>
      match c.remove p with
      | Except.ok (c2, _) => replay c2 rest
      | Except.error e => Except.error e

/-- The side conditions of the replay property: every `join` adds a player
not currently listed, every `leave` names a listed player, and the
instance-deletion branch of `remove` never fires. -/
def okSeq (c : Channel) : List Op → Bool
  | [] => true
  | Op.join p :: rest => !(c.players.contains p) && okSeq (c.append p) rest
  | Op.leave p :: rest =>
      match listRemove c.players p with
      | some l =>
          c.players.contains p &&
          ((!(c.players.length == 1 && c.instance_)) &&
            okSeq { c with players := l } rest)
      | none => false

/-- The sessions named by the `join` calls of a history. -/
def joinedPlayers (ops : List Op) : List Player :=
  ops.filterMap (fun o => match o with | Op.join p => some p | Op.leave _ => none)

/-- Number of `join` calls in a history. -/
def countJoins (ops : List Op) : Nat :=
  ops.countP (fun o => match o with | Op.join _ => true | Op.leave _ => false)

/-- Number of `leave` calls in a history. -/
def countLeaves (ops : List Op) : Nat :=
  ops.countP (fun o => match o with | Op.join _ => false | Op.leave _ => true)

/-! ### Helper lemmas -/

theorem listRemove_of_not_mem (l : List Player) (p : Player) (h : p ∉ l) :
    listRemove l p = none := by
  induction l with
  | nil => rfl
  | cons x xs ih =>
      simp only [List.mem_cons, not_or] at h
      have hxp : ¬ x = p := fun e => h.1 e.symm
      rw [listRemove, if_neg hxp, ih h.2]
      rfl

theorem listRemove_length (l l2 : List Player) (p : Player)
    (h : listRemove l p = some l2) : l2.length + 1 = l.length := by
  induction l generalizing l2 with
  | nil => simp [listRemove] at h
  | cons x xs ih =>
      by_cases hx : x = p
      · simp only [listRemove, if_pos hx] at h
        cases h
        rfl
      · simp only [listRemove, if_neg hx, Option.map_eq_some'] at h
        obtain ⟨ys, hys, rfl⟩ := h
        simp [← ih ys hys]

theorem listRemove_of_mem (l : List Player) (p : Player) (h : p ∈ l) :
    ∃ l2, listRemove l p = some l2 := by
  induction l with
  | nil => cases h
  | cons x xs ih =>
      by_cases hx : x = p
      · exact ⟨xs, by simp [listRemove, if_pos hx]⟩
      · obtain ⟨l2, hl2⟩ := ih (by
          rcases List.mem_cons.mp h with h1 | h1
          · exact absurd h1.symm hx
          · exact h1)
        exact ⟨x :: l2, by simp [listRemove, if_neg hx, hl2]⟩

theorem spec_multi_exclusive (s : String) (h1 : pyStartswith s "#spec_" = true)
    (h2 : pyStartswith s "#multi_" = true) : False := by
  rw [pyStartswith, List.isPrefixOf_iff_prefix] at h1 h2
  have e1 : ("#spec_" : String).data = ['#', 's', 'p', 'e', 'c', '_'] := rfl
  have e2 : ("#multi_" : String).data = ['#', 'm', 'u', 'l', 't', 'i', '_'] := rfl
  rw [e1] at h1
  rw [e2] at h2
  obtain ⟨t1, ht1⟩ := h1
  obtain ⟨t2, ht2⟩ := h2
  rw [← ht1] at ht2
  simp at ht2

/-! ### Claim theorems -/

/-- C4: the `name` property maps a `#spec_`-prefixed internal name to
`"#spectator"`, a `#multi_`-prefixed one to `"#multiplayer"`, and any other
internal name to itself; it evaluates as required on `"#spec_42"`,
`"#multi_7"` and `"#general"`, and it is a pure function of the internal
name alone (channels agreeing on `_name` display identically). -/
theorem name_prefix_mapping (c : Channel) :
    (pyStartswith c._name "#spec_" = true → c.name = "#spectator") ∧
    (pyStartswith c._name "#multi_" = true → c.name = "#multiplayer") ∧
    (pyStartswith c._name "#spec_" = false →
      pyStartswith c._name "#multi_" = false → c.name = c._name) ∧
    (Channel.init "#spec_42" "t" 1 1 true true).name = "#spectator" ∧
    (Channel.init "#multi_7" "t" 1 1 true true).name = "#multiplayer" ∧
    (Channel.init "#general" "t" 1 1 true false).name = "#general" ∧
    (∀ c2 : Channel, c2._name = c._name → c2.name = c.name) := by
  refine ⟨?_, ?_, ?_, by decide, by decide, by decide, ?_⟩
  · intro h
    simp [Channel.name, h]
  · intro h
    have hns : pyStartswith c._name "#spec_" = false := by
      cases hs : pyStartswith c._name "#spec_" with
      | false => rfl
      | true => exact absurd (spec_multi_exclusive c._name hs h) not_false
    simp [Channel.name, hns, h]
  · intro h1 h2
    simp [Channel.name, h1, h2]
  · intro c2 h
    simp [Channel.name, h]

/-- C4 witness: the theorem applied to a concrete `#spec_`-prefixed
channel. -/
theorem name_prefix_mapping_witness :
    (Channel.init "#spec_42" "t" 1 1 true true).name = "#spectator" :=
  (name_prefix_mapping (Channel.init "#spec_42" "t" 1 1 true true)).1 (by decide)

/-- C1: on an instance channel whose member list is exactly the departing
session, `remove` succeeds and issues the directory-removal request for the
channel exactly once, leaving the channel to be dropped from the directory
instead of lingering empty. -/
theorem remove_last_instance_member_deletes (c : Channel) (p : Player)
    (hinst : c.instance_ = true) (hone : c.players = [p]) :
    ∃ c2 evs, c.remove p = Except.ok (c2, evs) ∧
      evs.count (DirEvent.removeChannel c._name) = 1 := by
  refine ⟨c, [DirEvent.removeChannel c._name], ?_, by simp⟩
  simp [Channel.remove, hone, hinst]

/-- C1 witness: a concrete one-member instance channel. -/
theorem remove_last_instance_member_deletes_witness :
    ∃ c2 evs,
      ({ _name := "#multi_1", topic := "t", players := [⟨7, "alice"⟩],
         read := 1, write := 1, auto_join := false, instance_ := true } : Channel).remove
          ⟨7, "alice"⟩ = Except.ok (c2, evs) ∧
      evs.count (DirEvent.removeChannel "#multi_1") = 1 :=
  remove_last_instance_member_deletes _ ⟨7, "alice"⟩ (by decide) (by decide)

/-- C9: whenever the instance-deletion branch of `remove` fires (instance
flag set, exactly one listed player), the player list is left untouched —
the call returns the channel unchanged together with only the directory
removal request. -/
theorem remove_instance_branch_frame (c : Channel) (p : Player)
    (hinst : c.instance_ = true) (hlen : c.players.length = 1) :
    c.remove p = Except.ok (c, [DirEvent.removeChannel c._name]) := by
  simp [Channel.remove, hlen, hinst]

/-- C9 witness: the departing player stays in the list of the concrete
channel after the deletion-branch `remove`. -/
theorem remove_instance_branch_frame_witness :
    ({ _name := "#spec_3", topic := "t", players := [⟨7, "alice"⟩],
       read := 1, write := 1, auto_join := false, instance_ := true } : Channel).remove
        ⟨7, "alice"⟩
      = Except.ok
        (({ _name := "#spec_3", topic := "t", players := [⟨7, "alice"⟩],
            read := 1, write := 1, auto_join := false, instance_ := true } : Channel),
         [DirEvent.removeChannel "#spec_3"]) :=
  remove_instance_branch_frame _ ⟨7, "alice"⟩ (by decide) (by decide)

/-- C10: on a one-member instance channel, `remove` requests directory
deletion for any argument whatsoever — here one that is not a member — and
reports no error: the branch looks only at the list length and the
instance flag. -/
theorem remove_deletes_even_for_nonmember (c : Channel) (p : Player)
    (hinst : c.instance_ = true) (hlen : c.players.length = 1)
    (_hnm : p ∉ c.players) :
    ∃ c2 evs, c.remove p = Except.ok (c2, evs) ∧
      DirEvent.removeChannel c._name ∈ evs := by
  refine ⟨c, [DirEvent.removeChannel c._name], ?_, by simp⟩
  simp [Channel.remove, hlen, hinst]

/-- C10 witness: a stranger leaving a one-member instance channel still
tears the channel down. -/
theorem remove_deletes_even_for_nonmember_witness :
    ∃ c2 evs,
      ({ _name := "#multi_9", topic := "t", players := [⟨7, "alice"⟩],
         read := 1, write := 1, auto_join := false, instance_ := true } : Channel).remove
          ⟨8, "bob"⟩ = Except.ok (c2, evs) ∧
      DirEvent.removeChannel "#multi_9" ∈ evs :=
  remove_deletes_even_for_nonmember _ ⟨8, "bob"⟩ (by decide) (by decide) (by decide)

/-- C6: on a non-instance channel whose sole member leaves, `remove`
deletes the member, requests nothing from the directory, and `basic_info`
afterwards reports zero members. -/
theorem remove_last_noninstance_member (c : Channel) (p : Player)
    (hinst : c.instance_ = false) (hone : c.players = [p]) :
    ∃ c2, c.remove p = Except.ok (c2, []) ∧ c2.players = [] ∧
      c2.basic_info = (c.name, c.topic, 0) := by
  refine ⟨{ c with players := [] }, ?_, rfl, ?_⟩
  · simp [Channel.remove, hone, hinst, listRemove]
  · simp [Channel.basic_info, Channel.name]

/-- C6 witness: a concrete one-member non-instance channel. -/
theorem remove_last_noninstance_member_witness :
    ∃ c2,
      ({ _name := "#osu", topic := "t", players := [⟨7, "alice"⟩],
         read := 1, write := 1, auto_join := true, instance_ := false } : Channel).remove
          ⟨7, "alice"⟩ = Except.ok (c2, []) ∧ c2.players = [] ∧
      c2.basic_info =
        (({ _name := "#osu", topic := "t", players := [⟨7, "alice"⟩],
            read := 1, write := 1, auto_join := true,
            instance_ := false } : Channel).name, "t", 0) :=
  remove_last_noninstance_member _ ⟨7, "alice"⟩ (by decide) (by decide)

/-- C3 counterexample: `append` performs no duplicate check.  Joining the
already-listed player `alice` yields a list with her twice: the size grows
and the identity 7 appears twice. -/
theorem append_duplicate_counterexample :
    ((⟨7, "alice"⟩ : Player) ∈
      ({ _name := "#osu", topic := "t", players := [⟨7, "alice"⟩],
         read := 1, write := 1, auto_join := true,
         instance_ := false } : Channel).players) ∧
    (({ _name := "#osu", topic := "t", players := [⟨7, "alice"⟩],
        read := 1, write := 1, auto_join := true,
        instance_ := false } : Channel).append ⟨7, "alice"⟩).players
      = [⟨7, "alice"⟩, ⟨7, "alice"⟩] ∧
    (({ _name := "#osu", topic := "t", players := [⟨7, "alice"⟩],
        read := 1, write := 1, auto_join := true,
        instance_ := false } : Channel).append ⟨7, "alice"⟩).players.length = 2 ∧
    ¬ ((({ _name := "#osu", topic := "t", players := [⟨7, "alice"⟩],
           read := 1, write := 1, auto_join := true,
           instance_ := false } : Channel).append
          ⟨7, "alice"⟩).players.map Player.id).Nodup := by
  decide

/-- C3 amended: `append` (join) of an already-present session appends a
second entry unconditionally — the member list grows by one and now counts
the session at least twice. -/
theorem append_present_duplicates (c : Channel) (p : Player)
    (hmem : p ∈ c.players) :
    (c.append p).players.length = c.players.length + 1 ∧
    2 ≤ List.count p (c.append p).players := by
  constructor
  · simp [Channel.append]
  · have h1 : 0 < List.count p c.players := List.count_pos_iff.mpr hmem
    have h2 : (c.append p).players = c.players ++ [p] := rfl
    rw [h2, List.count_append]
    have h3 : List.count p [p] = 1 := by simp
    omega

/-- C3 amended witness: the duplicate join applied to a concrete
one-member channel. -/
theorem append_present_duplicates_witness :
    (({ _name := "#osu", topic := "t", players := [⟨7, "alice"⟩],
        read := 1, write := 1, auto_join := true,
        instance_ := false } : Channel).append ⟨7, "alice"⟩).players.length
      = ({ _name := "#osu", topic := "t", players := [⟨7, "alice"⟩],
           read := 1, write := 1, auto_join := true,
           instance_ := false } : Channel).players.length + 1 ∧
    2 ≤ List.count (⟨7, "alice"⟩ : Player)
        (({ _name := "#osu", topic := "t", players := [⟨7, "alice"⟩],
            read := 1, write := 1, auto_join := true,
            instance_ := false } : Channel).append ⟨7, "alice"⟩).players :=
  append_present_duplicates _ ⟨7, "alice"⟩ (by decide)

/-- C2 counterexample: removing the non-member `bob` is neither a uniform
no-op nor a uniformly reported error.  On a one-member instance channel the
call silently requests directory deletion (no error at all); on a
non-instance channel it raises `ValueError` — Python's `list.remove`
crashes on a missing element. -/
theorem remove_absent_counterexample :
    ((⟨8, "bob"⟩ : Player) ∉
      ({ _name := "#multi_1", topic := "t", players := [⟨7, "alice"⟩],
         read := 1, write := 1, auto_join := false,
         instance_ := true } : Channel).players) ∧
    ({ _name := "#multi_1", topic := "t", players := [⟨7, "alice"⟩],
       read := 1, write := 1, auto_join := false,
       instance_ := true } : Channel).remove ⟨8, "bob"⟩
      = Except.ok
        (({ _name := "#multi_1", topic := "t", players := [⟨7, "alice"⟩],
            read := 1, write := 1, auto_join := false,
            instance_ := true } : Channel),
         [DirEvent.removeChannel "#multi_1"]) ∧
    ((⟨8, "bob"⟩ : Player) ∉
      ({ _name := "#osu", topic := "t", players := [⟨7, "alice"⟩],
         read := 1, write := 1, auto_join := true,
         instance_ := false } : Channel).players) ∧
    ({ _name := "#osu", topic := "t", players := [⟨7, "alice"⟩],
       read := 1, write := 1, auto_join := true,
       instance_ := false } : Channel).remove ⟨8, "bob"⟩
      = Except.error PyError.valueError := by
  decide

/-- C2 amended: removing an absent session never changes the member list,
but the outcome is branch-dependent: on a one-member instance channel the
call requests directory deletion and reports nothing, and in every other
state it raises `ValueError`. -/
theorem remove_absent_behavior (c : Channel) (p : Player)
    (hnm : p ∉ c.players) :
    (∀ c2 evs, c.remove p = Except.ok (c2, evs) → c2.players = c.players) ∧
    (c.players.length = 1 ∧ c.instance_ = true →
      c.remove p = Except.ok (c, [DirEvent.removeChannel c._name])) ∧
    (¬ (c.players.length = 1 ∧ c.instance_ = true) →
      c.remove p = Except.error PyError.valueError) := by
  have hnone := listRemove_of_not_mem c.players p hnm
  refine ⟨?_, ?_, ?_⟩
  · intro c2 evs h
    cases hb : (c.players.length == 1 && c.instance_) with
    | true =>
        rw [Channel.remove, if_pos hb] at h
        cases h
        rfl
    | false =>
        rw [Channel.remove, if_neg (by simp [hb]), hnone] at h
        cases h
  · intro h
    simp [Channel.remove, h.1, h.2]
  · intro h
    cases hb : (c.players.length == 1 && c.instance_) with
    | true =>
        exfalso
        simp only [Bool.and_eq_true, beq_iff_eq] at hb
        exact h hb
    | false =>
        rw [Channel.remove, if_neg (by simp [hb]), hnone]

/-- C2 amended witness: the concrete one-member instance channel and the
non-member `bob`. -/
theorem remove_absent_behavior_witness :
    (∀ c2 evs,
      ({ _name := "#multi_1", topic := "t", players := [⟨7, "alice"⟩],
         read := 1, write := 1, auto_join := false,
         instance_ := true } : Channel).remove ⟨8, "bob"⟩
        = Except.ok (c2, evs) →
      c2.players
        = ({ _name := "#multi_1", topic := "t", players := [⟨7, "alice"⟩],
             read := 1, write := 1, auto_join := false,
             instance_ := true } : Channel).players) ∧
    (({ _name := "#multi_1", topic := "t", players := [⟨7, "alice"⟩],
        read := 1, write := 1, auto_join := false,
        instance_ := true } : Channel).players.length = 1 ∧
      ({ _name := "#multi_1", topic := "t", players := [⟨7, "alice"⟩],
         read := 1, write := 1, auto_join := false,
         instance_ := true } : Channel).instance_ = true →
      ({ _name := "#multi_1", topic := "t", players := [⟨7, "alice"⟩],
         read := 1, write := 1, auto_join := false,
         instance_ := true } : Channel).remove ⟨8, "bob"⟩
        = Except.ok
          (({ _name := "#multi_1", topic := "t", players := [⟨7, "alice"⟩],
              read := 1, write := 1, auto_join := false,
              instance_ := true } : Channel),
           [DirEvent.removeChannel "#multi_1"])) ∧
    (¬ (({ _name := "#multi_1", topic := "t", players := [⟨7, "alice"⟩],
           read := 1, write := 1, auto_join := false,
           instance_ := true } : Channel).players.length = 1 ∧
        ({ _name := "#multi_1", topic := "t", players := [⟨7, "alice"⟩],
           read := 1, write := 1, auto_join := false,
           instance_ := true } : Channel).instance_ = true) →
      ({ _name := "#multi_1", topic := "t", players := [⟨7, "alice"⟩],
         read := 1, write := 1, auto_join := false,
         instance_ := true } : Channel).remove ⟨8, "bob"⟩
        = Except.error PyError.valueError) :=
  remove_absent_behavior _ ⟨8, "bob"⟩ (by decide)

theorem filter_not_immune_single (l : List Player) (client : Player)
    (hnd : (l.map Player.id).Nodup) (hm : client ∈ l) :
    l.filter (fun p => !([client.id].contains p.id))
      = l.filter (fun p => p ≠ client) := by
  apply List.filter_congr
  intro x hx
  by_cases hxc : x = client
  · subst hxc
    simp [List.contains]
  · have hid : x.id ≠ client.id := fun e =>
      hxc (List.inj_on_of_nodup_map hnd hx hm e)
    simp [List.contains, hid, hxc]

/-- C5: `send` fans the encoded message out over the member list in
insertion order: with `to_self = true` every member (the sender included)
gets one copy, and with `to_self = false` exactly the members other than
the sender get one copy, assuming member identities are distinct and the
sender is a member. -/
theorem send_fanout (c : Channel) (client : Player) (msg : String)
    (hnd : (c.players.map Player.id).Nodup) (hmem : client ∈ c.players) :
    ((c.send client msg true).map Prod.fst = c.players) ∧
    ((c.send client msg false).map Prod.fst
      = c.players.filter (fun p => p ≠ client)) ∧
    ((c.send client msg true).map Prod.snd
      = List.replicate c.players.length
          (sendMessage client.name msg c.name client.id)) ∧
    ((c.send client msg false).map Prod.snd
      = List.replicate (c.players.filter (fun p => p ≠ client)).length
          (sendMessage client.name msg c.name client.id)) := by
  have hfilter := filter_not_immune_single c.players client hnd hmem
  have hfst : (Prod.fst ∘ fun p : Player =>
      (p, sendMessage client.name msg c.name client.id)) = id :=
    funext fun p => rfl
  have hsnd : (Prod.snd ∘ fun p : Player =>
      (p, sendMessage client.name msg c.name client.id))
        = fun _ => sendMessage client.name msg c.name client.id :=
    funext fun p => rfl
  refine ⟨?_, ?_, ?_, ?_⟩
  · simp [Channel.send, Channel.enqueue, List.map_map, hfst]
  · simp only [Channel.send, Channel.enqueue, if_neg Bool.false_ne_true,
      List.map_map]
    rw [hfilter]
    simp [hfst]
  · simp [Channel.send, Channel.enqueue, List.map_map, hsnd]
  · simp only [Channel.send, Channel.enqueue, if_neg Bool.false_ne_true,
      List.map_map]
    rw [hfilter]
    simp [hsnd]

/-- C5 witness: three members with `alice` as sender — everyone but her
with `to_self = false`, everyone with `to_self = true`. -/
theorem send_fanout_witness :
    (({ _name := "#osu", topic := "t",
        players := [⟨7, "alice"⟩, ⟨8, "bob"⟩, ⟨9, "carol"⟩],
        read := 1, write := 1, auto_join := true,
        instance_ := false } : Channel).send ⟨7, "alice"⟩ "hi" true).map Prod.fst
      = [⟨7, "alice"⟩, ⟨8, "bob"⟩, ⟨9, "carol"⟩] ∧
    (({ _name := "#osu", topic := "t",
        players := [⟨7, "alice"⟩, ⟨8, "bob"⟩, ⟨9, "carol"⟩],
        read := 1, write := 1, auto_join := true,
        instance_ := false } : Channel).send ⟨7, "alice"⟩ "hi" false).map Prod.fst
      = ({ _name := "#osu", topic := "t",
           players := [⟨7, "alice"⟩, ⟨8, "bob"⟩, ⟨9, "carol"⟩],
           read := 1, write := 1, auto_join := true,
           instance_ := false } : Channel).players.filter
          (fun p => p ≠ (⟨7, "alice"⟩ : Player)) := by
  have h := send_fanout
    ({ _name := "#osu", topic := "t",
       players := [⟨7, "alice"⟩, ⟨8, "bob"⟩, ⟨9, "carol"⟩],
       read := 1, write := 1, auto_join := true,
       instance_ := false } : Channel) ⟨7, "alice"⟩ "hi"
    (by decide) (by decide)
  exact ⟨h.1, h.2.1⟩

/-- C8: `send_selective` delivers exactly one copy of the encoded message
to each player of `targets`, in the order given, with no membership check —
the result does not depend on the channel's member list at all, and the
member list is not modified (the operation is a pure fan-out). -/
theorem send_selective_exact (c : Channel) (client : Player) (msg : String)
    (targets : List Player) :
    ((c.send_selective client msg targets).map Prod.fst = targets) ∧
    ((c.send_selective client msg targets).map Prod.snd
      = List.replicate targets.length
          (sendMessage client.name msg c.name client.id)) ∧
    (∀ l : List Player,
      ({ c with players := l } : Channel).send_selective client msg targets
        = c.send_selective client msg targets) := by
  have hfst : (Prod.fst ∘ fun p : Player =>
      (p, sendMessage client.name msg c.name client.id)) = id :=
    funext fun p => rfl
  have hsnd : (Prod.snd ∘ fun p : Player =>
      (p, sendMessage client.name msg c.name client.id))
        = fun _ => sendMessage client.name msg c.name client.id :=
    funext fun p => rfl
  refine ⟨?_, ?_, fun l => rfl⟩
  · simp [Channel.send_selective, List.map_map, hfst]
  · simp [Channel.send_selective, List.map_map, hsnd]

theorem replay_length_invariant (ops : List Op) :
    ∀ c : Channel, okSeq c ops = true →
    ∃ c2, replay c ops = Except.ok c2 ∧
      c2.players.length + countLeaves ops
        = c.players.length + countJoins ops := by
  induction ops with
  | nil =>
      intro c _
      exact ⟨c, rfl, by simp [countJoins, countLeaves]⟩
  | cons o rest ih =>
      intro c hok
      cases o with
      | join p =>
          simp only [okSeq, Bool.and_eq_true] at hok
          obtain ⟨c2, hre, hlen⟩ := ih (c.append p) hok.2
          refine ⟨c2, hre, ?_⟩
          have hap : (c.append p).players.length = c.players.length + 1 := by
            simp [Channel.append]
          simp [countJoins, countLeaves, List.countP_cons, hap] at hlen ⊢
          omega
      | leave p =>
          simp only [okSeq] at hok
          cases hr : listRemove c.players p with
          | none =>
              rw [hr] at hok
              exact Bool.noConfusion hok
          | some l =>
              rw [hr] at hok
              simp only [Bool.and_eq_true] at hok
              obtain ⟨ha, hb, hm⟩ := hok
              have hcond : (c.players.length == 1 && c.instance_) = false := by
                cases h1 : (c.players.length == 1 && c.instance_) with
                | false => rfl
                | true => rw [h1] at hb; exact Bool.noConfusion hb
              have hrem : c.remove p = Except.ok ({ c with players := l }, []) := by
                rw [Channel.remove, if_neg (by simp [hcond]), hr]
              obtain ⟨c2, hre, hlen⟩ := ih { c with players := l } hm
              refine ⟨c2, ?_, ?_⟩
              · show (match c.remove p with
                  | Except.ok (c2, _) => replay c2 rest
                  | Except.error e => Except.error e) = Except.ok c2
                rw [hrem]
                exact hre
              · have hl : l.length + 1 = c.players.length :=
                  listRemove_length c.players l p hr
                simp [countJoins, countLeaves, List.countP_cons] at hlen ⊢
                omega

/-- C7: replaying any join/leave history from an empty channel — in which
no session is joined twice, every leave names a currently listed session,
and the instance-deletion branch never fires — succeeds and leaves exactly
(#joins − #leaves) members. -/
theorem replay_size_eq (ops : List Op) (c : Channel)
    (hempty : c.players = []) (_hjoins : (joinedPlayers ops).Nodup)
    (hok : okSeq c ops = true) :
    ∃ c2, replay c ops = Except.ok c2 ∧
      c2.players.length = countJoins ops - countLeaves ops := by
  obtain ⟨c2, hre, hlen⟩ := replay_length_invariant ops c hok
  rw [hempty] at hlen
  simp only [List.length_nil] at hlen
  exact ⟨c2, hre, by omega⟩

/-- C7 witness: joining `alice` and `bob`, then `alice` leaving, leaves one
member. -/
theorem replay_size_eq_witness :
    ∃ c2, replay (Channel.init "#osu" "t" 1 1 true false)
        [Op.join ⟨7, "alice"⟩, Op.join ⟨8, "bob"⟩, Op.leave ⟨7, "alice"⟩]
      = Except.ok c2 ∧
      c2.players.length
        = countJoins [Op.join ⟨7, "alice"⟩, Op.join ⟨8, "bob"⟩,
              Op.leave ⟨7, "alice"⟩]
          - countLeaves [Op.join ⟨7, "alice"⟩, Op.join ⟨8, "bob"⟩,
              Op.leave ⟨7, "alice"⟩] :=
  replay_size_eq _ _ (by decide) (by decide) (by decide)
